import Mathlib

/-!
Verification of the `myterm` process-supervision backend
(`src-tauri/src/lib.rs`) against its natural-language specification.

The Rust source is shallowly embedded: pure helpers become Lean functions;
the registry (`HashMap<String, ManagedProcess>` behind a mutex) becomes an
association list; OS-level effects (signals, `kill(-pgid, 0)` probes,
sleeps, child spawn/wait outcomes) are represented by explicit oracles and
by returned action traces.
-/

set_option autoImplicit false

namespace MyTerm

/-! ## Version comparison (`parse_version`, `is_newer_version`) -/

/-- Both-ends whitespace trim, modelling Rust's `str::trim`. -/
def rustTrim (s : List Char) : List Char :=
  ((s.dropWhile Char.isWhitespace).reverse.dropWhile Char.isWhitespace).reverse

/-- Splitting on `'.'`, modelling Rust's `str::split('.')`: the empty string
yields one empty piece, and adjacent dots yield empty pieces. -/
def splitDots : List Char → List (List Char)
  | [] => [[]]
  | c :: rest =>
    if c = '.' then [] :: splitDots rest
    else
      match splitDots rest with
      | [] => [[c]]
      | group :: groups => (c :: group) :: groups

/-- Accumulate the numeric value of a digit run; `none` on a non-digit. -/
def parseDigits : List Char → Nat → Option Nat
  | [], acc => some acc
  | c :: rest, acc =>
    if c.isDigit then parseDigits rest (acc * 10 + (c.toNat - 48))
    else none

/-- Rust's `str::parse::<u32>()`: optional leading `'+'`, at least one digit,
all characters digits, value below `2^32` (overflow is an error). -/
def rustParseU32 (l : List Char) : Option Nat :=
  let digits :=
    match l with
    | '+' :: rest => rest
    | other => other
  match digits with
  | [] => none
  | _ =>
    match parseDigits digits 0 with
    | some v => if v < 4294967296 then some v else none
    | none => none

/-- Embeds `parse_version` (lib.rs:359-366): trim, strip leading `'v'`s,
split on `'.'`, parse each piece as `u32` with `unwrap_or(0)`. -/
def parse_version (version : String) : List Nat :=
  (splitDots ((rustTrim version.data).dropWhile (fun c => c == 'v'))).map
    (fun part => (rustParseU32 part).getD 0)

/-- The component-comparison loop of `is_newer_version` (lib.rs:373-382):
`fuel` counts the remaining indices of `0..max_len`, `idx` is the current
index, and absent components read as `0`. -/
def newerFrom (lp cp : List Nat) : Nat → Nat → Bool
  | _, 0 => false
  | idx, fuel + 1 =>
    let latest_value := lp.getD idx 0
    let current_value := cp.getD idx 0
    if current_value < latest_value then true
    else if latest_value < current_value then false
    else newerFrom lp cp (idx + 1) fuel

/-- Embeds `is_newer_version` (lib.rs:368-385). -/
def is_newer_version (latest current : String) : Bool :=
  let latest_parts := parse_version latest
  let current_parts := parse_version current
  newerFrom latest_parts current_parts 0
    (max latest_parts.length current_parts.length)

/-! ## Registry keys -/

/-- Embeds `process_key` (lib.rs:104-106): `format!("{}::{}", ..)`. -/
def process_key (project_path process_name : String) : String :=
  project_path ++ "::" ++ process_name

/-! ## Registry data model -/

/-- A child's stdin pipe, abstracted by the outcome the OS would give a
`write_all` of the pending input and a subsequent `flush`: `none` means the
call succeeds, `some err` means it fails with message `err`. -/
structure ChildStdin where
  writeErr : Option String
  flushErr : Option String
deriving DecidableEq

/-- Embeds `ManagedProcess` (lib.rs:54-60). The `Arc<AtomicBool>` stop flag
and the `Arc<Mutex<Option<ChildStdin>>>` cell are modelled by their current
contents. -/
structure ManagedProcess where
  pid : Nat
  stop_flag : Bool
  stdin : Option ChildStdin
deriving DecidableEq

/-- The `HashMap<String, ManagedProcess>` registry, as an association list
with unique keys maintained by construction. -/
abbrev Registry := List (String × ManagedProcess)

/-- Lookup by key (`HashMap::get` / `contains_key`). -/
def lookupR : Registry → String → Option ManagedProcess
  | [], _ => none
  | (k, v) :: rest, key => if k = key then some v else lookupR rest key

/-- Removal by key (`HashMap::remove`). -/
def removeR (regs : Registry) (key : String) : Registry :=
  regs.filter (fun e => !(e.1 == key))

/-- In-place mutation of the entry under `key` (`HashMap::get_mut`). -/
def updateR (regs : Registry) (key : String) (f : ManagedProcess → ManagedProcess) :
    Registry :=
  regs.map (fun e => if e.1 = key then (e.1, f e.2) else e)

/-! ## Signals and liveness probes -/

/-- The two signals the supervisor sends. -/
inductive Sig where
  | term
  | kill
deriving DecidableEq

/-- Embeds `signal_process_group` (lib.rs:185-196) as the list of
`(pgid, signal)` deliveries it performs: none when `pgid == 0`, otherwise
one delivery to the whole group. -/
def signal_process_group (pgid : Nat) (s : Sig) : List (Nat × Sig) :=
  if pgid = 0 then [] else [(pgid, s)]

/-- `errno` value for "no such process / group". -/
def ESRCH : Nat := 3

/-- Embeds `process_group_exists` (lib.rs:198-214). `probe pgid` is the OS
outcome of `kill(-pgid, 0)`: `none` for success, `some errno` for failure. -/
def process_group_exists (pgid : Nat) (probe : Nat → Option Nat) : Bool :=
  if pgid = 0 then false
  else
    match probe pgid with
    | none => true
    | some err => err != ESRCH

/-- Modelled from the spec's words for claim comparison: "probes liveness
with a no-op signal; returns true unless the OS reports no such
process/group (ESRCH)". -/
def group_exists_spec (pgid : Nat) (probe : Nat → Option Nat) : Bool :=
  match probe pgid with
  | none => true
  | some err => err != ESRCH

/-! ## start_process: registration (lib.rs:506-522) -/

/-- Embeds the admission-control section of `start_process`: with the
registry lock held, a present key is rejected with "Process already
running"; an absent key gets a fresh handle `{pid: 0, stop_flag: false,
stdin: None}` inserted. Returns the command's result together with the
registry afterwards. -/
def start_process_register (regs : Registry) (project_path process_name : String) :
    Except String Unit × Registry :=
  let key := process_key project_path process_name
  if (lookupR regs key).isSome then
    (Except.error "Process already running", regs)
  else
    (Except.ok (), (key, { pid := 0, stop_flag := false, stdin := none }) :: regs)

/-! ## The supervision loop (lib.rs:535-675) -/

/-- Observable actions of one supervision thread: spawn attempts and the
emitted `process-status` / `process-log` events. -/
inductive REv where
  | spawnAttempt
  | status (s : String)
  | log (line : String) (stream : String)
deriving DecidableEq

/-- Environment outcome of one `cmd.spawn()` in the loop: failure, or a
child with its pid, its stdin pipe (if any), the result `child.wait()`
will return (`Ok(status)` carrying `status.code()`, or `Err`), and the
value the stop flag holds when the loop re-reads it after the wait. -/
inductive SpawnOutcome where
  | fail (err : String)
  | ok (pid : Nat) (stdinH : Option ChildStdin) (waitRes : Except String (Option Int))
      (stopAfterWait : Bool)

/-- Environment input for one iteration of the loop: the stop-flag value
read at the top of the iteration, and the spawn outcome used if the
iteration proceeds to spawn. -/
structure IterInput where
  stopAtStart : Bool
  outcome : SpawnOutcome

/-- The `[exit] ...` log line emitted after `child.wait()`
(lib.rs:627-656). -/
def exitLog : Except String (Option Int) → REv
  | Except.ok (some code) => REv.log ("[exit] code " ++ toString code) "stdout"
  | Except.ok none => REv.log "[exit] terminated by signal" "stdout"
  | Except.error err => REv.log ("[exit] wait failed: " ++ err) "stderr"

/-- Embeds the supervision loop body (lib.rs:535-670), driven by a script
of environment inputs. Returns the action trace, the registry when the
loop ends, and whether the loop terminated (`break`) within the script;
`false` means the script was exhausted with the loop still going. -/
def runLoop (key : String) (autorestart : Bool) :
    Registry → List IterInput → List REv × Registry × Bool
  | regs, [] => ([], regs, false)
  | regs, inp :: rest =>
    if inp.stopAtStart then
      ([], regs, true)
    else
      match inp.outcome with
      | SpawnOutcome.fail err =>
        let evs := [REv.spawnAttempt,
                    REv.log ("Failed to start: " ++ err) "stderr",
                    REv.status "crashed"]
        if autorestart then
          let res := runLoop key autorestart regs rest
          (evs ++ res.1, res.2.1, res.2.2)
        else
          (evs, regs, true)
      | SpawnOutcome.ok pid stdinH waitRes stopAfter =>
        let regs1 := updateR regs key (fun e =>
          { e with
            pid := pid,
            stdin := match stdinH with | some s => some s | none => e.stdin })
        let regs2 := updateR regs1 key (fun e => { e with stdin := none })
        let evs := [REv.spawnAttempt, REv.status "running", exitLog waitRes]
        if stopAfter then
          (evs ++ [REv.status "stopped"], regs2, true)
        else if autorestart then
          let res := runLoop key autorestart regs2 rest
          (evs ++ [REv.status "crashed"] ++ res.1, res.2.1, res.2.2)
        else
          (evs ++ [REv.status "crashed"], regs2, true)

/-- Embeds the whole supervision thread: the loop followed by
`map.remove(&key)` (lib.rs:672-674) once the loop has terminated. -/
def runner (key : String) (autorestart : Bool) (regs : Registry)
    (script : List IterInput) : List REv × Registry × Bool :=
  let res := runLoop key autorestart regs script
  (res.1, if res.2.2 then removeR res.2.1 key else res.2.1, res.2.2)

/-! ## stop_process (lib.rs:680-722) -/

/-- The delayed re-check scheduled by `stop_process`: grace period in
seconds, the registry key to re-read, and the pid captured at stop time
as fallback. -/
structure StopSchedule where
  delaySecs : Nat
  key : String
  fallbackPid : Nat
deriving DecidableEq

/-- Embeds `stop_process` (lib.rs:680-722): absent key fails with
"Process not running"; otherwise the stop flag is stored `true`, SIGTERM
goes to the captured pid's group, and a 3-second re-check is scheduled. -/
def stop_process (regs : Registry) (project_path process_name : String) :
    Except String (Registry × List (Nat × Sig) × StopSchedule) :=
  let key := process_key project_path process_name
  match lookupR regs key with
  | none => Except.error "Process not running"
  | some entry =>
    Except.ok (updateR regs key (fun e => { e with stop_flag := true }),
               signal_process_group entry.pid Sig.term,
               { delaySecs := 3, key := key, fallbackPid := entry.pid })

/-- The pid the delayed re-check uses (lib.rs:711-714): the current pid
re-read from the registry, falling back to the pid captured at stop time
if the key is gone. -/
def recheck_pid (regs : Registry) (key : String) (fallback : Nat) : Nat :=
  match lookupR regs key with
  | some e => e.pid
  | none => fallback

/-- Embeds the body of the delayed thread in `stop_process`
(lib.rs:709-718): after the grace period, re-read the pid and SIGKILL the
group if it still exists. `regs` is the registry at re-check time and
`probe` the OS liveness oracle at that moment. -/
def stop_recheck (sched : StopSchedule) (regs : Registry)
    (probe : Nat → Option Nat) : List (Nat × Sig) :=
  let pid := recheck_pid regs sched.key sched.fallbackPid
  if process_group_exists pid probe then signal_process_group pid Sig.kill
  else []

/-! ## write_to_process (lib.rs:724-757) -/

/-- Operations performed on a child's stdin pipe. -/
inductive StdinOp where
  | write (bytes : String)
  | flush
deriving DecidableEq

/-- Embeds `write_to_process` (lib.rs:724-757): absent key fails with
"Process not running"; an empty stdin cell fails with "Process stdin not
available"; otherwise `write_all` then `flush`, surfacing the first I/O
failure. Also returns the stdin operations performed. -/
def write_to_process (regs : Registry) (project_path process_name input : String) :
    Except String Unit × List StdinOp :=
  let key := process_key project_path process_name
  match lookupR regs key with
  | none => (Except.error "Process not running", [])
  | some entry =>
    match entry.stdin with
    | none => (Except.error "Process stdin not available", [])
    | some s =>
      match s.writeErr with
      | some err =>
        (Except.error ("Failed to write to stdin: " ++ err), [StdinOp.write input])
      | none =>
        match s.flushErr with
        | some err =>
          (Except.error ("Failed to flush stdin: " ++ err),
           [StdinOp.write input, StdinOp.flush])
        | none => (Except.ok (), [StdinOp.write input, StdinOp.flush])

/-! ## shutdown_all (lib.rs:216-264) -/

/-- Embeds `stop_all_processes` (lib.rs:216-236): store `true` into every
stop flag, collect the pids `> 0`, SIGTERM each such group. Returns the
registry afterwards, the collected pgids, and the signal deliveries. -/
def stop_all_processes (regs : Registry) : Registry × List Nat × List (Nat × Sig) :=
  let regs' := regs.map (fun e => (e.1, { e.2 with stop_flag := true }))
  let pgids := (regs.map (fun e => e.2.pid)).filter (fun p => decide (0 < p))
  let terms := pgids.flatMap (fun p => signal_process_group p Sig.term)
  (regs', pgids, terms)

/-- One polling loop of `wait_then_force_kill` (lib.rs:242-247 and
257-263): while the elapsed time is below `waitFor`, return once every
group is gone, else sleep 50ms and repeat. `probe t p` is the OS outcome
of `kill(-p, 0)` at `t` milliseconds after the loop began; `fuel` bounds
the iterations (`waitFor / 50` is exact for the 50ms step). Returns the
milliseconds slept. -/
def pollPhase (pgids : List Nat) (probe : Nat → Nat → Option Nat) (waitFor : Nat) :
    Nat → Nat → Nat
  | _, 0 => 0
  | elapsed, fuel + 1 =>
    if elapsed < waitFor then
      if pgids.all (fun p => !process_group_exists p (probe elapsed)) then 0
      else 50 + pollPhase pgids probe waitFor (elapsed + 50) fuel
    else 0

/-- Result of `wait_then_force_kill`: the SIGKILL deliveries and the time
slept in each of the two polling phases. -/
structure ShutdownTiming where
  kills : List (Nat × Sig)
  graceSleep : Nat
  postKillSleep : Nat
deriving DecidableEq

/-- Embeds `wait_then_force_kill` (lib.rs:238-264): poll for voluntary
exit up to `waitFor`, SIGKILL every group still alive, then poll again up
to `hardKillAfter`. -/
def wait_then_force_kill (pgids : List Nat) (probe : Nat → Nat → Option Nat)
    (waitFor hardKillAfter : Nat) : ShutdownTiming :=
  let e1 := pollPhase pgids probe waitFor 0 (waitFor / 50)
  let kills := pgids.flatMap (fun p =>
    if process_group_exists p (probe e1) then signal_process_group p Sig.kill
    else [])
  let e2 := pollPhase pgids (fun t => probe (e1 + t)) hardKillAfter 0
    (hardKillAfter / 50)
  { kills := kills, graceSleep := e1, postKillSleep := e2 }

/-! ## check_for_update (lib.rs:759-796) -/

/-- A release asset as deserialized from the GitHub manifest. -/
structure GithubAsset where
  name : String
  browser_download_url : String
deriving DecidableEq

/-- A release manifest as deserialized from the GitHub feed. -/
structure GithubRelease where
  tag_name : String
  assets : List GithubAsset

/-- The update decision returned to the frontend. -/
structure UpdateInfo where
  available : Bool
  version : String
  download_url : String
deriving DecidableEq

/-- Embeds the decision logic of `check_for_update` (lib.rs:776-795),
starting from a successfully fetched and parsed release manifest: strip
leading `'v'`s from the tag, compare with `is_newer_version`, and require
the `MyTerm.zip` asset exactly when an update is available. -/
def check_for_update (current_version : String) (release : GithubRelease) :
    Except String UpdateInfo :=
  let latest_tag := release.tag_name
  let latest_version := String.mk (latest_tag.data.dropWhile (fun c => c == 'v'))
  let available := is_newer_version latest_version current_version
  if available then
    match release.assets.find? (fun a => a.name == "MyTerm.zip") with
    | some asset =>
      Except.ok { available := true, version := latest_tag,
                  download_url := asset.browser_download_url }
    | none => Except.error "Update available, but MyTerm.zip asset not found"
  else
    Except.ok { available := false, version := latest_tag, download_url := "" }

/-- Whether an `Except` result is an error. -/
def exceptIsErr {α β : Type} : Except α β → Bool
  | Except.error _ => true
  | Except.ok _ => false

/-! ## Lemmas about the version comparison -/

theorem newerFrom_self (lp : List Nat) :
    ∀ fuel idx, newerFrom lp lp idx fuel = false := by
  intro fuel
  induction fuel with
  | zero => intro idx; rfl
  | succ n ih => intro idx; simp [newerFrom, ih]

theorem newerFrom_asymm (lp cp : List Nat) :
    ∀ fuel idx, newerFrom lp cp idx fuel = true → newerFrom cp lp idx fuel = false := by
  intro fuel
  induction fuel with
  | zero => intro idx h; simp [newerFrom] at h
  | succ n ih =>
    intro idx h
    by_cases h1 : cp.getD idx 0 < lp.getD idx 0
    · have h2 : ¬ lp.getD idx 0 < cp.getD idx 0 := by omega
      simp only [newerFrom, if_neg h2, if_pos h1]
    · by_cases h2 : lp.getD idx 0 < cp.getD idx 0
      · simp only [newerFrom, if_neg h1, if_pos h2] at h
        exact absurd h (by simp)
      · simp only [newerFrom, if_neg h1, if_neg h2] at h
        simp only [newerFrom, if_neg h2, if_neg h1]
        exact ih (idx + 1) h

theorem newerFrom_eq_true_iff (lp cp : List Nat) :
    ∀ fuel idx,
      newerFrom lp cp idx fuel = true ↔
        ∃ k, k < fuel ∧
          (∀ j, j < k → lp.getD (idx + j) 0 = cp.getD (idx + j) 0) ∧
          cp.getD (idx + k) 0 < lp.getD (idx + k) 0 := by
  intro fuel
  induction fuel with
  | zero => intro idx; simp [newerFrom]
  | succ n ih =>
    intro idx
    by_cases h1 : cp.getD idx 0 < lp.getD idx 0
    · simp only [newerFrom, if_pos h1]
      constructor
      · intro _
        refine ⟨0, Nat.succ_pos n, fun j hj => absurd hj (Nat.not_lt_zero j), ?_⟩
        rw [Nat.add_zero]
        exact h1
      · intro _
        trivial
    · by_cases h2 : lp.getD idx 0 < cp.getD idx 0
      · simp only [newerFrom, if_neg h1, if_pos h2]
        constructor
        · intro hfalse
          exact absurd hfalse (by simp)
        · rintro ⟨k, _, hpre, hlt⟩
          cases k with
          | zero =>
            rw [Nat.add_zero] at hlt
            omega
          | succ k' =>
            have h0 := hpre 0 (Nat.succ_pos k')
            rw [Nat.add_zero] at h0
            omega
      · have heq : lp.getD idx 0 = cp.getD idx 0 := by omega
        simp only [newerFrom, if_neg h1, if_neg h2]
        rw [ih (idx + 1)]
        constructor
        · rintro ⟨k, hk, hpre, hlt⟩
          refine ⟨k + 1, by omega, ?_, ?_⟩
          · intro j hj
            cases j with
            | zero =>
              rw [Nat.add_zero]
              exact heq
            | succ j' =>
              have h' := hpre j' (by omega)
              have e : idx + (j' + 1) = idx + 1 + j' := by omega
              rw [e]; exact h'
          · have e : idx + (k + 1) = idx + 1 + k := by omega
            rw [e]; exact hlt
        · rintro ⟨k, hk, hpre, hlt⟩
          cases k with
          | zero =>
            rw [Nat.add_zero] at hlt
            omega
          | succ k' =>
            refine ⟨k', by omega, ?_, ?_⟩
            · intro j hj
              have h' := hpre (j + 1) (by omega)
              have e : idx + (j + 1) = idx + 1 + j := by omega
              rwa [e] at h'
            · have e : idx + (k' + 1) = idx + 1 + k' := by omega
              rwa [e] at hlt

/-! ## Lemmas about key concatenation -/

theorem colonfree_append_inj (p1 : List Char) :
    ∀ p2 n1 n2 : List Char, ':' ∉ p1 → ':' ∉ p2 →
      p1 ++ ':' :: ':' :: n1 = p2 ++ ':' :: ':' :: n2 → p1 = p2 ∧ n1 = n2 := by
  induction p1 with
  | nil =>
    intro p2 n1 n2 _ h2 h
    cases p2 with
    | nil => simpa using h
    | cons d p2' =>
      simp only [List.nil_append, List.cons_append, List.cons.injEq] at h
      exact absurd (h.1 ▸ List.mem_cons_self d p2') h2
  | cons c p1' ih =>
    intro p2 n1 n2 h1 h2 h
    cases p2 with
    | nil =>
      simp only [List.nil_append, List.cons_append, List.cons.injEq] at h
      exact absurd (h.1 ▸ List.mem_cons_self c p1') h1
    | cons d p2' =>
      simp only [List.cons_append, List.cons.injEq] at h
      have h1' : ':' ∉ p1' := fun hm => h1 (List.mem_cons_of_mem c hm)
      have h2' : ':' ∉ p2' := fun hm => h2 (List.mem_cons_of_mem d hm)
      obtain ⟨hp, hn⟩ := ih p2' n1 n2 h1' h2' h.2
      exact ⟨by rw [h.1, hp], hn⟩

/-! ## Lemmas about the registry -/

theorem lookupR_removeR (regs : Registry) (key : String) :
    lookupR (removeR regs key) key = none := by
  induction regs with
  | nil => rfl
  | cons e rest ih =>
    obtain ⟨k, v⟩ := e
    by_cases h : k = key
    · simpa [removeR, List.filter_cons, h] using ih
    · simpa [removeR, List.filter_cons, lookupR, h] using ih

theorem lookupR_updateR (regs : Registry) (key : String)
    (f : ManagedProcess → ManagedProcess) :
    lookupR (updateR regs key f) key = (lookupR regs key).map f := by
  induction regs with
  | nil => rfl
  | cons e rest ih =>
    obtain ⟨k, v⟩ := e
    by_cases h : k = key
    · subst h
      have e1 : updateR ((k, v) :: rest) k f = (k, f v) :: updateR rest k f := by
        unfold updateR
        rw [List.map_cons]
        congr 1
        exact if_pos rfl
      rw [e1]
      show (if k = k then some (f v) else lookupR (updateR rest k f) k)
          = Option.map f (if k = k then some v else lookupR rest k)
      rw [if_pos rfl, if_pos rfl]
      rfl
    · simp only [updateR, List.map_cons, if_neg h]
      simpa [lookupR, h] using ih

/-! ## Claim theorems -/

/-- Claim C1: `start` on an identity already present in the registry
returns the "Process already running" error and leaves the registry
unchanged; on an absent identity it succeeds and inserts a fresh handle
with pid 0, a cleared stop flag and an empty stdin cell, leaving every
other key's lookup unchanged. -/
theorem claim_C1 :
    ∀ (regs : Registry) (project_path process_name : String),
      ((lookupR regs (process_key project_path process_name)).isSome = true →
        start_process_register regs project_path process_name =
          (Except.error "Process already running", regs))
      ∧ (lookupR regs (process_key project_path process_name) = none →
          (start_process_register regs project_path process_name).1 = Except.ok () ∧
          lookupR (start_process_register regs project_path process_name).2
              (process_key project_path process_name) =
            some { pid := 0, stop_flag := false, stdin := none } ∧
          ∀ k, k ≠ process_key project_path process_name →
            lookupR (start_process_register regs project_path process_name).2 k =
              lookupR regs k) := by
  intro regs pp pn
  constructor
  · intro h
    simp [start_process_register, h]
  · intro h
    refine ⟨by simp [start_process_register, h], by simp [start_process_register, h, lookupR], ?_⟩
    intro k hk
    simp [start_process_register, h, lookupR, Ne.symm hk]

/-- Witness for claim C1: a duplicate registration is rejected with the
registry intact, and registration in an empty registry inserts the fresh
handle. -/
theorem claim_C1_witness :
    start_process_register
        [(process_key "p" "n", { pid := 3, stop_flag := false, stdin := none })]
        "p" "n" =
      (Except.error "Process already running",
       [(process_key "p" "n", { pid := 3, stop_flag := false, stdin := none })]) ∧
    (start_process_register [] "p" "n").1 = Except.ok () ∧
    lookupR (start_process_register [] "p" "n").2 (process_key "p" "n") =
      some { pid := 0, stop_flag := false, stdin := none } :=
  ⟨(claim_C1 [(process_key "p" "n", { pid := 3, stop_flag := false, stdin := none })]
      "p" "n").1 (by decide),
   ((claim_C1 [] "p" "n").2 rfl).1,
   ((claim_C1 [] "p" "n").2 rfl).2.1⟩

/-- Claim C3: `stop` fails with "Process not running" iff the identity is
absent; otherwise it sets the stop flag, immediately delivers SIGTERM to
the captured pid's process group, and schedules a 3-second re-check; the
re-check re-reads the current pid from the registry (falling back to the
captured pid) and delivers SIGKILL to that group iff it still exists. -/
theorem claim_C3 :
    ∀ (regs : Registry) (project_path process_name : String),
      (stop_process regs project_path process_name =
          Except.error "Process not running" ↔
        lookupR regs (process_key project_path process_name) = none)
      ∧ (∀ entry, lookupR regs (process_key project_path process_name) = some entry →
          stop_process regs project_path process_name =
            Except.ok
              (updateR regs (process_key project_path process_name)
                 (fun e => { e with stop_flag := true }),
               signal_process_group entry.pid Sig.term,
               { delaySecs := 3, key := process_key project_path process_name,
                 fallbackPid := entry.pid })
          ∧ lookupR
                (updateR regs (process_key project_path process_name)
                  (fun e => { e with stop_flag := true }))
                (process_key project_path process_name) =
              some { entry with stop_flag := true }
          ∧ (entry.pid ≠ 0 →
              signal_process_group entry.pid Sig.term = [(entry.pid, Sig.term)]))
      ∧ (∀ (sched : StopSchedule) (regs2 : Registry) (probe : Nat → Option Nat),
          stop_recheck sched regs2 probe =
            if process_group_exists (recheck_pid regs2 sched.key sched.fallbackPid) probe
            then [(recheck_pid regs2 sched.key sched.fallbackPid, Sig.kill)]
            else []) := by
  intro regs pp pn
  refine ⟨?_, ?_, ?_⟩
  · cases hl : lookupR regs (process_key pp pn) with
    | none => simp [stop_process, hl]
    | some entry => simp [stop_process, hl]
  · intro entry hl
    refine ⟨by simp [stop_process, hl], ?_, ?_⟩
    · rw [lookupR_updateR, hl]
      rfl
    · intro hpid
      simp [signal_process_group, hpid]
  · intro sched regs2 probe
    by_cases h : process_group_exists (recheck_pid regs2 sched.key sched.fallbackPid) probe
    · have hpid : recheck_pid regs2 sched.key sched.fallbackPid ≠ 0 := by
        intro h0
        rw [h0] at h
        simp [process_group_exists] at h
      simp [stop_recheck, h, signal_process_group, hpid]
    · simp [stop_recheck, h]

/-- Witness for claim C3: stopping a concrete registered process yields
the SIGTERM delivery and the 3-second schedule. -/
theorem claim_C3_witness :
    stop_process [(process_key "p" "n",
        { pid := 7, stop_flag := false, stdin := none })] "p" "n" =
      Except.ok
        (updateR [(process_key "p" "n", { pid := 7, stop_flag := false, stdin := none })]
           (process_key "p" "n") (fun e => { e with stop_flag := true }),
         signal_process_group 7 Sig.term,
         { delaySecs := 3, key := process_key "p" "n", fallbackPid := 7 }) ∧
    signal_process_group 7 Sig.term = [(7, Sig.term)] := by
  have h := (claim_C3
    [(process_key "p" "n", { pid := 7, stop_flag := false, stdin := none })] "p" "n").2.1
    { pid := 7, stop_flag := false, stdin := none } (by decide)
  exact ⟨h.1, h.2.2 (by decide)⟩

/-- Claim C4: `write_to_process` fails with "Process not running" when the
identity is absent, with "Process stdin not available" when it is present
but the stdin cell is empty, and otherwise writes the bytes and flushes,
surfacing the first write/flush failure to the caller. -/
theorem claim_C4 :
    ∀ (regs : Registry) (project_path process_name input : String),
      (lookupR regs (process_key project_path process_name) = none →
        write_to_process regs project_path process_name input =
          (Except.error "Process not running", []))
      ∧ (∀ entry, lookupR regs (process_key project_path process_name) = some entry →
          entry.stdin = none →
          write_to_process regs project_path process_name input =
            (Except.error "Process stdin not available", []))
      ∧ (∀ entry s, lookupR regs (process_key project_path process_name) = some entry →
          entry.stdin = some s →
          (∀ e, s.writeErr = some e →
              write_to_process regs project_path process_name input =
                (Except.error ("Failed to write to stdin: " ++ e),
                 [StdinOp.write input]))
          ∧ (∀ e, s.writeErr = none → s.flushErr = some e →
              write_to_process regs project_path process_name input =
                (Except.error ("Failed to flush stdin: " ++ e),
                 [StdinOp.write input, StdinOp.flush]))
          ∧ (s.writeErr = none → s.flushErr = none →
              write_to_process regs project_path process_name input =
                (Except.ok (), [StdinOp.write input, StdinOp.flush]))) := by
  intro regs pp pn input
  refine ⟨?_, ?_, ?_⟩
  · intro h
    simp [write_to_process, h]
  · intro entry hl hs
    simp [write_to_process, hl, hs]
  · intro entry s hl hs
    refine ⟨?_, ?_, ?_⟩
    · intro e hw
      simp [write_to_process, hl, hs, hw]
    · intro e hw hf
      simp [write_to_process, hl, hs, hw, hf]
    · intro hw hf
      simp [write_to_process, hl, hs, hw, hf]

/-- Witness for claim C4: the three outcomes at concrete registries — an
absent identity, a registered identity with an empty stdin cell, and a
registered identity whose stdin accepts the write and flush. -/
theorem claim_C4_witness :
    write_to_process [] "p" "n" "hi" = (Except.error "Process not running", []) ∧
    write_to_process
        [(process_key "p" "n", { pid := 0, stop_flag := false, stdin := none })]
        "p" "n" "hi" =
      (Except.error "Process stdin not available", []) ∧
    write_to_process
        [(process_key "p" "n",
          { pid := 4, stop_flag := false,
            stdin := some { writeErr := none, flushErr := none } })]
        "p" "n" "hi" =
      (Except.ok (), [StdinOp.write "hi", StdinOp.flush]) := by
  refine ⟨(claim_C4 [] "p" "n" "hi").1 rfl, ?_, ?_⟩
  · exact (claim_C4 _ "p" "n" "hi").2.1
      { pid := 0, stop_flag := false, stdin := none } (by decide) rfl
  · exact ((claim_C4 _ "p" "n" "hi").2.2
      { pid := 4, stop_flag := false,
        stdin := some { writeErr := none, flushErr := none } }
      { writeErr := none, flushErr := none } (by decide) rfl).2.2 rfl rfl

/-- Claim C5: `is_newer_version` splits on `'.'` into numeric components,
treats missing trailing components as 0 and non-numeric components as 0,
compares lexicographically from most- to least-significant component, and
returns true iff latest > current in that order; the spec's four examples
hold. -/
theorem claim_C5 :
    (∀ latest current : String,
        is_newer_version latest current = true ↔
          ∃ k, k < max (parse_version latest).length (parse_version current).length ∧
            (∀ j, j < k →
              (parse_version latest).getD j 0 = (parse_version current).getD j 0) ∧
            (parse_version current).getD k 0 < (parse_version latest).getD k 0)
    ∧ is_newer_version "1.2.0" "1.1.9" = true
    ∧ is_newer_version "1.0" "1.0.0" = false
    ∧ is_newer_version "2" "1.99.99" = true
    ∧ is_newer_version "1.0.0" "1.0" = false := by
  refine ⟨?_, by decide, by decide, by decide, by decide⟩
  intro latest current
  rw [show is_newer_version latest current =
      newerFrom (parse_version latest) (parse_version current) 0
        (max (parse_version latest).length (parse_version current).length) from rfl]
  simpa using newerFrom_eq_true_iff (parse_version latest) (parse_version current)
    (max (parse_version latest).length (parse_version current).length) 0

/-- Claim C2: with the stop flag set at the top of an iteration the loop
terminates without spawning; after a child exit with the stop flag set a
"stopped" status is emitted and the loop terminates; with the flag clear a
"crashed" status is emitted and, when autorestart is false, the loop
terminates with no further spawn attempt (likewise on a spawn failure);
and whenever the loop terminates, the supervision thread removes the
identity from the registry, after which a fresh `start` succeeds. -/
theorem claim_C2 :
    ∀ (project_path process_name : String) (ar : Bool) (regs : Registry)
      (script : List IterInput),
      (∀ oc rest, runLoop (process_key project_path process_name) ar regs
          ({ stopAtStart := true, outcome := oc } :: rest) = ([], regs, true))
      ∧ (∀ pid sh wr rest,
          runLoop (process_key project_path process_name) ar regs
            ({ stopAtStart := false,
               outcome := SpawnOutcome.ok pid sh wr true } :: rest) =
          ([REv.spawnAttempt, REv.status "running", exitLog wr, REv.status "stopped"],
           updateR
             (updateR regs (process_key project_path process_name)
               (fun e =>
                 { e with
                   pid := pid,
                   stdin := match sh with | some s => some s | none => e.stdin }))
             (process_key project_path process_name)
             (fun e => { e with stdin := none }),
           true))
      ∧ (∀ pid sh wr rest,
          runLoop (process_key project_path process_name) false regs
            ({ stopAtStart := false,
               outcome := SpawnOutcome.ok pid sh wr false } :: rest) =
          ([REv.spawnAttempt, REv.status "running", exitLog wr, REv.status "crashed"],
           updateR
             (updateR regs (process_key project_path process_name)
               (fun e =>
                 { e with
                   pid := pid,
                   stdin := match sh with | some s => some s | none => e.stdin }))
             (process_key project_path process_name)
             (fun e => { e with stdin := none }),
           true))
      ∧ (∀ err rest,
          runLoop (process_key project_path process_name) false regs
            ({ stopAtStart := false, outcome := SpawnOutcome.fail err } :: rest) =
          ([REv.spawnAttempt, REv.log ("Failed to start: " ++ err) "stderr",
            REv.status "crashed"], regs, true))
      ∧ ((runner (process_key project_path process_name) ar regs script).2.2 = true →
          lookupR (runner (process_key project_path process_name) ar regs script).2.1
              (process_key project_path process_name) = none
          ∧ (start_process_register
              (runner (process_key project_path process_name) ar regs script).2.1
              project_path process_name).1 = Except.ok ()) := by
  intro pp pn ar regs script
  refine ⟨fun oc rest => rfl, fun pid sh wr rest => rfl, fun pid sh wr rest => rfl,
    fun err rest => rfl, ?_⟩
  intro h
  simp only [runner] at h ⊢
  rw [if_pos h]
  constructor
  · exact lookupR_removeR _ _
  · simp [start_process_register, lookupR_removeR]

/-- Witness for claim C2: a stop requested before the thread ran leads to
termination, removal from the registry, and a fresh start succeeding. -/
theorem claim_C2_witness :
    lookupR (runner (process_key "p" "n") false []
        [{ stopAtStart := true, outcome := SpawnOutcome.fail "e" }]).2.1
      (process_key "p" "n") = none ∧
    (start_process_register
        (runner (process_key "p" "n") false []
          [{ stopAtStart := true, outcome := SpawnOutcome.fail "e" }]).2.1
        "p" "n").1 = Except.ok () :=
  (claim_C2 "p" "n" false []
    [{ stopAtStart := true, outcome := SpawnOutcome.fail "e" }]).2.2.2.2 rfl

/-- Witness for claim C5: the lexicographic characterization instantiated
at the spec's first example. -/
theorem claim_C5_witness :
    ∃ k, k < max (parse_version "1.2.0").length (parse_version "1.1.9").length ∧
      (∀ j, j < k →
        (parse_version "1.2.0").getD j 0 = (parse_version "1.1.9").getD j 0) ∧
      (parse_version "1.1.9").getD k 0 < (parse_version "1.2.0").getD k 0 :=
  (claim_C5.1 "1.2.0" "1.1.9").mp claim_C5.2.1

/-- Claim C10: `is_newer_version` is asymmetric (never true in both
directions) and irreflexive (every version string compares not-newer than
itself). -/
theorem claim_C10 :
    (∀ a b : String, (is_newer_version a b && is_newer_version b a) = false)
    ∧ ∀ v : String, is_newer_version v v = false := by
  constructor
  · intro a b
    cases h : is_newer_version a b with
    | false => simp [h]
    | true =>
      have h3 : newerFrom (parse_version a) (parse_version b) 0
          (max (parse_version a).length (parse_version b).length) = true := h
      have h2 : is_newer_version b a = false := by
        show newerFrom (parse_version b) (parse_version a) 0
          (max (parse_version b).length (parse_version a).length) = false
        rw [Nat.max_comm]
        exact newerFrom_asymm (parse_version a) (parse_version b) _ 0 h3
      simp [h, h2]
  · intro v
    exact newerFrom_self (parse_version v) _ 0

/-- Counterexample for claim C6: the key computation is not injective on
all pairs, because the project path may itself contain the `"::"`
separator: `("a::b", "c")` and `("a", "b::c")` are distinct pairs with the
same key. -/
theorem claim_C6_counterexample :
    process_key "a::b" "c" = process_key "a" "b::c" ∧
      ¬ (("a::b" : String) = "a" ∧ ("c" : String) = "b::c") := by
  constructor
  · rfl
  · decide

/-- Claim C6 (amended): the key computation is injective on pairs whose
project paths contain no `':'` character. -/
theorem claim_C6 :
    ∀ p1 n1 p2 n2 : String, ':' ∉ p1.data → ':' ∉ p2.data →
      process_key p1 n1 = process_key p2 n2 → p1 = p2 ∧ n1 = n2 := by
  intro p1 n1 p2 n2 h1 h2 h
  have hd : p1.data ++ ':' :: ':' :: n1.data = p2.data ++ ':' :: ':' :: n2.data := by
    have h' := congrArg String.data h
    simpa [process_key, String.data_append] using h'
  obtain ⟨hp, hn⟩ := colonfree_append_inj p1.data p2.data n1.data n2.data h1 h2 hd
  exact ⟨String.ext hp, String.ext hn⟩

/-- Witness for claim C6: the amended injectivity applied at a concrete
colon-free pair. -/
theorem claim_C6_witness : ("a" : String) = "a" ∧ ("b" : String) = "b" :=
  claim_C6 "a" "b" "a" "b" (by decide) (by decide) rfl

/-- Counterexample for claim C7: at `pgid = 0` the code returns `false`
without probing, even when the probe would not report ESRCH, so the claim
as stated (true unless the OS reports ESRCH, for every pgid) fails. -/
theorem claim_C7_counterexample :
    process_group_exists 0 (fun _ => none) ≠ group_exists_spec 0 (fun _ => none) := by
  decide

/-- Claim C7 (amended): `process_group_exists` returns `false` for
`pgid = 0` without probing; for every nonzero pgid it probes with the
no-op signal and returns true unless the OS reports ESRCH. -/
theorem claim_C7 :
    (∀ probe : Nat → Option Nat, process_group_exists 0 probe = false)
    ∧ ∀ (pgid : Nat) (probe : Nat → Option Nat), pgid ≠ 0 →
        process_group_exists pgid probe = group_exists_spec pgid probe := by
  constructor
  · intro probe; rfl
  · intro pgid probe hne
    simp [process_group_exists, group_exists_spec, hne]

/-- Witness for claim C7: the amended equivalence applied at a concrete
nonzero pgid. -/
theorem claim_C7_witness :
    process_group_exists 5 (fun _ => none) = group_exists_spec 5 (fun _ => none) :=
  claim_C7.2 5 (fun _ => none) (by decide)

/-! ## Lemmas about shutdown -/

theorem pollPhase_le (pgids : List Nat) (probe : Nat → Nat → Option Nat)
    (waitFor : Nat) :
    ∀ fuel elapsed, pollPhase pgids probe waitFor elapsed fuel ≤ 50 * fuel := by
  intro fuel
  induction fuel with
  | zero =>
    intro e
    simp [pollPhase]
  | succ n ih =>
    intro e
    simp only [pollPhase]
    by_cases h1 : e < waitFor
    · rw [if_pos h1]
      by_cases h2 : pgids.all (fun p => !process_group_exists p (probe e)) = true
      · rw [if_pos h2]
        omega
      · rw [if_neg h2]
        have h3 := ih (e + 50)
        omega
    · rw [if_neg h1]
      omega

theorem flatMap_signal_nonzero (s : Sig) :
    ∀ l : List Nat, (∀ p ∈ l, p ≠ 0) →
      l.flatMap (fun p => signal_process_group p s) = l.map (fun p => (p, s)) := by
  intro l
  induction l with
  | nil => intro _; rfl
  | cons p rest ih =>
    intro h
    have hp : p ≠ 0 := h p (List.mem_cons_self p rest)
    have hrest := ih (fun q hq => h q (List.mem_cons_of_mem p hq))
    simp only [signal_process_group] at hrest
    simp [List.flatMap_cons, signal_process_group, hp, hrest]

theorem flatMap_kill_filter (probe1 : Nat → Option Nat) :
    ∀ l : List Nat,
      l.flatMap (fun p =>
          if process_group_exists p probe1 then signal_process_group p Sig.kill
          else []) =
        (l.filter (fun p => process_group_exists p probe1)).map
          (fun p => (p, Sig.kill)) := by
  intro l
  induction l with
  | nil => rfl
  | cons p rest ih =>
    by_cases h : process_group_exists p probe1 = true
    · have hp : p ≠ 0 := by
        intro h0
        rw [h0] at h
        simp [process_group_exists] at h
      simp only [signal_process_group] at ih
      simp [List.flatMap_cons, List.filter_cons, h, signal_process_group, hp, ih]
    · simp only [signal_process_group] at ih
      simp [List.flatMap_cons, List.filter_cons, h, signal_process_group, ih]

theorem lookupR_map_stop (regs : Registry) :
    ∀ k, lookupR (regs.map (fun e => (e.1, { e.2 with stop_flag := true }))) k =
      (lookupR regs k).map (fun m => { m with stop_flag := true }) := by
  induction regs with
  | nil => intro k; rfl
  | cons e rest ih =>
    intro k
    obtain ⟨k0, v⟩ := e
    by_cases h : k0 = k
    · subst h
      show (if k0 = k0 then some { v with stop_flag := true }
            else lookupR (rest.map fun e => (e.1, { e.2 with stop_flag := true })) k0)
          = Option.map (fun m => { m with stop_flag := true })
              (if k0 = k0 then some v else lookupR rest k0)
      rw [if_pos rfl, if_pos rfl]
      rfl
    · show (if k0 = k then some { v with stop_flag := true }
            else lookupR (rest.map fun e => (e.1, { e.2 with stop_flag := true })) k)
          = Option.map (fun m => { m with stop_flag := true })
              (if k0 = k then some v else lookupR rest k)
      rw [if_neg h, if_neg h]
      exact ih k

/-- Claim C8: `shutdown_all` sets every registered stop flag, SIGTERMs
every group with a nonzero pid, then in one bulk wait-then-escalate polls
in 50ms steps for at most 800ms, SIGKILLs exactly the groups still alive
at escalation time, polls for at most another 800ms, and its total sleep
is bounded by 1.6 seconds for every behavior of the children. -/
theorem claim_C8 :
    ∀ (regs : Registry) (probe : Nat → Nat → Option Nat),
      (∀ k m, lookupR regs k = some m →
        lookupR (stop_all_processes regs).1 k = some { m with stop_flag := true })
      ∧ (stop_all_processes regs).2.1 =
          (regs.map (fun e => e.2.pid)).filter (fun p => decide (0 < p))
      ∧ (stop_all_processes regs).2.2 =
          (stop_all_processes regs).2.1.map (fun p => (p, Sig.term))
      ∧ (wait_then_force_kill (stop_all_processes regs).2.1 probe 800 800).kills =
          ((stop_all_processes regs).2.1.filter (fun p =>
              process_group_exists p (probe
                (wait_then_force_kill (stop_all_processes regs).2.1 probe
                  800 800).graceSleep))).map (fun p => (p, Sig.kill))
      ∧ (wait_then_force_kill (stop_all_processes regs).2.1 probe 800 800).graceSleep
          ≤ 800
      ∧ (wait_then_force_kill (stop_all_processes regs).2.1 probe 800 800).postKillSleep
          ≤ 800
      ∧ (wait_then_force_kill (stop_all_processes regs).2.1 probe 800 800).graceSleep +
          (wait_then_force_kill (stop_all_processes regs).2.1 probe 800 800).postKillSleep
          ≤ 1600 := by
  intro regs probe
  have hgrace :
      (wait_then_force_kill (stop_all_processes regs).2.1 probe 800 800).graceSleep
        ≤ 800 := by
    have h := pollPhase_le (stop_all_processes regs).2.1 probe 800 (800 / 50) 0
    simpa [wait_then_force_kill] using h
  have hpost :
      (wait_then_force_kill (stop_all_processes regs).2.1 probe 800 800).postKillSleep
        ≤ 800 := by
    have h := pollPhase_le (stop_all_processes regs).2.1
      (fun t => probe
        ((wait_then_force_kill (stop_all_processes regs).2.1 probe 800 800).graceSleep
          + t)) 800 (800 / 50) 0
    simpa [wait_then_force_kill] using h
  refine ⟨?_, rfl, ?_, ?_, hgrace, hpost, by omega⟩
  · intro k m h
    have h' := lookupR_map_stop regs k
    simp only [stop_all_processes]
    rw [h', h]
    rfl
  · have hnz : ∀ p ∈ (stop_all_processes regs).2.1, p ≠ 0 := by
      intro p hp
      simp only [stop_all_processes, List.mem_filter, decide_eq_true_eq] at hp
      omega
    exact flatMap_signal_nonzero Sig.term (stop_all_processes regs).2.1 hnz
  · exact flatMap_kill_filter _ (stop_all_processes regs).2.1

/-- Witness for claim C8: shutting down a one-entry registry with a child
that is already gone sets its stop flag. -/
theorem claim_C8_witness :
    lookupR (stop_all_processes
        [(process_key "p" "n", { pid := 7, stop_flag := false, stdin := none })]).1
      (process_key "p" "n") =
      some { pid := 7, stop_flag := true, stdin := none } :=
  (claim_C8 [(process_key "p" "n", { pid := 7, stop_flag := false, stdin := none })]
    (fun _ _ => some ESRCH)).1 (process_key "p" "n")
    { pid := 7, stop_flag := false, stdin := none } (by decide)

/-- Claim C9: given a parsed release manifest, `check_for_update` errors
iff the latest version is newer and no asset is named exactly
"MyTerm.zip"; when newer and the asset exists it returns that asset's
download URL; when not newer it succeeds with `available = false` and an
empty download URL regardless of the assets. -/
theorem claim_C9 :
    ∀ (current : String) (rel : GithubRelease),
      (exceptIsErr (check_for_update current rel) = true ↔
        (is_newer_version (String.mk (rel.tag_name.data.dropWhile (fun c => c == 'v')))
            current = true
         ∧ rel.assets.find? (fun a => a.name == "MyTerm.zip") = none))
      ∧ (∀ a,
          is_newer_version (String.mk (rel.tag_name.data.dropWhile (fun c => c == 'v')))
            current = true →
          rel.assets.find? (fun a => a.name == "MyTerm.zip") = some a →
          check_for_update current rel =
            Except.ok { available := true, version := rel.tag_name,
                        download_url := a.browser_download_url })
      ∧ (is_newer_version (String.mk (rel.tag_name.data.dropWhile (fun c => c == 'v')))
            current = false →
          check_for_update current rel =
            Except.ok { available := false, version := rel.tag_name,
                        download_url := "" }) := by
  intro current rel
  refine ⟨?_, ?_, ?_⟩
  · cases hn : is_newer_version
        (String.mk (rel.tag_name.data.dropWhile (fun c => c == 'v'))) current with
    | false => simp [check_for_update, exceptIsErr, hn]
    | true =>
      cases hf : rel.assets.find? (fun a => a.name == "MyTerm.zip") with
      | none => simp [check_for_update, exceptIsErr, hn, hf]
      | some a => simp [check_for_update, exceptIsErr, hn, hf]
  · intro a hn hf
    simp [check_for_update, hn, hf]
  · intro hn
    simp [check_for_update, hn]

/-- Witness for claim C9: an available update with the asset present
yields its URL; a missing asset with an available update is a hard error;
a non-newer tag succeeds with no availability. -/
theorem claim_C9_witness :
    check_for_update "1.0.0"
        { tag_name := "v1.1.0",
          assets := [{ name := "MyTerm.zip", browser_download_url := "u" }] } =
      Except.ok { available := true, version := "v1.1.0", download_url := "u" } ∧
    exceptIsErr (check_for_update "1.0.0" { tag_name := "v1.1.0", assets := [] })
      = true ∧
    check_for_update "1.0.0" { tag_name := "v1.0.0", assets := [] } =
      Except.ok { available := false, version := "v1.0.0", download_url := "" } := by
  refine ⟨?_, ?_, ?_⟩
  · exact (claim_C9 "1.0.0"
      { tag_name := "v1.1.0",
        assets := [{ name := "MyTerm.zip", browser_download_url := "u" }] }).2.1
      { name := "MyTerm.zip", browser_download_url := "u" } (by decide) rfl
  · exact (claim_C9 "1.0.0" { tag_name := "v1.1.0", assets := [] }).1.mpr
      ⟨by decide, rfl⟩
  · exact (claim_C9 "1.0.0" { tag_name := "v1.0.0", assets := [] }).2.2 (by decide)

end MyTerm
